import Mathlib

/-!
# Verification of the Attendance Audit & Escalation Engine store

Shallow embedding of the SQLite-backed store of the Slack attendance bot
(`database.py`, `database_repair.py`).  Tables become Lean lists of records,
`SELECT ... fetchone` becomes `List.find?`, `UPDATE ... WHERE` becomes
`List.map` guarded on the predicate, `INSERT` appends a row whose `id` is the
autoincrement counter, and commit/rollback becomes returning the new or the
original state.  Nullable SQL columns are `Option` valued.
-/

namespace AttendanceBot

/-- A row of the `users` table (the columns the embedded operations read). -/
structure User where
  user_slack_id : String
  user_name : String
  user_login_time : Option String
  supervisor_slack_id : Option String
  second_supervisor_slack_id : Option String
  supervisor_email_id : Option String
  second_supervisor_email_id : Option String
deriving DecidableEq, Repr

/-- A row of the `audits` table.  `id` is `Option Nat`: schema drift can leave
rows whose `id` column is NULL, which the repair paths handle. -/
structure AuditRecord where
  id : Option Nat
  user_slack_id : String
  workday : String
  login_time : Option String
  logout_time : Option String
  self_notified : Option Int
  supervisor_notified : Option Int
  second_supervisor_notified : Option Int
  is_supervisor_acknowledged : Option Int
  is_second_supervisor_acknowledged : Option Int
  last_supervisor_notification_time : Option String
  last_second_supervisor_notification_time : Option String
  expected_login_time : Option String
  email_supervisor_notified : Option Int
  email_second_supervisor_notified : Option Int
deriving DecidableEq, Repr

/-- A row of the `acknowledgment_tokens` table. -/
structure AckToken where
  token : String
  user_slack_id : String
  is_second_supervisor : Int
  created_at : String
  used : Int
deriving DecidableEq, Repr

/-- The database state: the three tables plus the autoincrement counter of the
`audits` table (`cursor.lastrowid` of the next insert). -/
structure Db where
  users : List User
  audits : List AuditRecord
  tokens : List AckToken
  nextAuditId : Nat
deriving DecidableEq, Repr

/-- The `WHERE user_slack_id = ? AND workday = ?` predicate. -/
def auditKey (u w : String) (a : AuditRecord) : Bool :=
  a.user_slack_id == u && a.workday == w

/-- All rows of the `audits` table matching a (user, workday) pair. -/
def rowsFor (u w : String) (l : List AuditRecord) : List AuditRecord :=
  l.filter (auditKey u w)

/-- A fresh `audits` row as produced by the INSERT statements of
`create_audit_record`, `update_user_login`, `record_user_logout`,
`get_audit_record`'s repair branch and `fix_user_record`: the listed counters
are inserted as 0, the email counters take their schema DEFAULT 0, and the
remaining columns are NULL. -/
def mkAudit (i : Option Nat) (u w : String) (login logout elt : Option String) :
    AuditRecord :=
  { id := i, user_slack_id := u, workday := w, login_time := login,
    logout_time := logout, self_notified := some 0,
    supervisor_notified := some 0, second_supervisor_notified := some 0,
    is_supervisor_acknowledged := some 0,
    is_second_supervisor_acknowledged := some 0,
    last_supervisor_notification_time := none,
    last_second_supervisor_notification_time := none,
    expected_login_time := elt, email_supervisor_notified := some 0,
    email_second_supervisor_notified := some 0 }

/-- `SELECT user_login_time FROM users WHERE user_slack_id = ?`, with the
Python `user[0] if user else None` collapse of "no row" and NULL. -/
def lookupExpectedLogin (u : String) (db : Db) : Option String :=
  match db.users.find? (fun x => x.user_slack_id == u) with
  | some usr => usr.user_login_time
  | none => none

/-! ## Token operations (`database.py`) -/

/-- `store_acknowledgment_token`: INSERT of a fresh token row; the PRIMARY KEY
constraint makes a duplicate token an error (rollback, `False`). -/
def store_acknowledgment_token (t uid : String) (isSecond : Bool) (now : String)
    (db : Db) : Bool × Db :=
  if db.tokens.any (fun k => k.token == t) then (false, db)
  else
    (true, { db with tokens := db.tokens ++
      [{ token := t, user_slack_id := uid,
         is_second_supervisor := if isSecond then 1 else 0,
         created_at := now, used := 0 }] })

/-- `get_acknowledgment_token`: `SELECT * FROM acknowledgment_tokens WHERE
token = ?` fetchone. -/
def get_acknowledgment_token (t : String) (db : Db) : Option AckToken :=
  db.tokens.find? (fun k => k.token == t)

/-- `mark_token_used`: `UPDATE acknowledgment_tokens SET used = 1 WHERE
token = ?`, commit, return `True`. -/
def mark_token_used (t : String) (db : Db) : Bool × Db :=
  (true, { db with tokens :=
      db.tokens.map (fun k => if k.token == t then { k with used := 1 } else k) })

/-- Modelled from the spec: the `validateAndConsume(token)` handler (the web
route that consumes acknowledgment links) is not among the source files; per
the spec it "fails with `Invalid` if the token does not exist or is already
used; otherwise atomically marks it used and returns its payload", built on
the store primitives `get_acknowledgment_token` and `mark_token_used`. -/
def validateAndConsume (t : String) (db : Db) :
    Option (String × Int) × Db :=
  match get_acknowledgment_token t db with
  | none => (none, db)
  | some tok =>
    if tok.used == 0 then
      (some (tok.user_slack_id, tok.is_second_supervisor),
       (mark_token_used t db).2)
    else (none, db)

/-! ## Audit record operations (`database.py`) -/

/-- `get_audit_record`: `SELECT id` for (user, workday); when no row is found
or the row's `id` is NULL, the repair branch deletes every (user, workday) row
(when any exists) and inserts a fresh one whose counters are 0 and whose
expected login time is re-read from the user; then the full row is re-read and
returned only when its `id` is valid. -/
def get_audit_record (u w : String) (db : Db) : Option AuditRecord × Db :=
  match db.audits.find? (auditKey u w) with
  | some a0 =>
    if a0.id.isNone then
      let elt := lookupExpectedLogin u db
      let audits2 := db.audits.filter (fun a => !(auditKey u w a)) ++
        [mkAudit (some db.nextAuditId) u w none none elt]
      let db2 := { db with audits := audits2, nextAuditId := db.nextAuditId + 1 }
      match audits2.find? (auditKey u w) with
      | some r => if r.id.isNone then (none, db2) else (some r, db2)
      | none => (none, db2)
    else (some a0, db)
  | none => (none, db)

/-- `create_audit_record`: returns the existing row's id when one with a valid
id exists; otherwise deletes any (user, workday) rows, inserts a fresh one,
verifies the inserted row has a valid id, and commits (rollback and exception,
modelled as `none`, otherwise). -/
def create_audit_record (u w : String) (elt : Option String) (db : Db) :
    Option Nat × Db :=
  let insertFresh : Option Nat × Db :=
    let audits2 := db.audits.filter (fun a => !(auditKey u w a)) ++
      [mkAudit (some db.nextAuditId) u w none none elt]
    match audits2.find? (auditKey u w) with
    | some v =>
      if v.id.isSome then
        (some db.nextAuditId,
         { db with audits := audits2, nextAuditId := db.nextAuditId + 1 })
      else (none, db)
    | none => (none, db)
  match db.audits.find? (auditKey u w) with
  | some a0 =>
    match a0.id with
    | some i => (some i, db)
    | none => insertFresh
  | none => insertFresh

/-- `update_user_login`: upsert of the login time for (user, workday); the
write is verified by re-reading `login_time` for the key and the transaction
commits only when the re-read value equals the intended one, rolling back
otherwise. -/
def update_user_login (u w T : String) (db : Db) : Bool × Db :=
  let audits2 : List AuditRecord :=
    match db.audits.find? (auditKey u w) with
    | some r =>
      match r.id with
      | some i =>
        db.audits.map
          (fun a => if a.id == some i then { a with login_time := some T } else a)
      | none => db.audits
    | none =>
      db.audits ++ [mkAudit (some db.nextAuditId) u w (some T) none
        (lookupExpectedLogin u db)]
  let nextId' : Nat :=
    match db.audits.find? (auditKey u w) with
    | some _ => db.nextAuditId
    | none => db.nextAuditId + 1
  match audits2.find? (auditKey u w) with
  | some v =>
    if v.login_time == some T then
      (true, { db with audits := audits2, nextAuditId := nextId' })
    else (false, db)
  | none => (false, db)

/-- `record_user_logout` (after computing the current workday and time, which
are passed here explicitly): upsert of the logout time with the same
verify-then-commit structure as `update_user_login`. -/
def record_user_logout (u w T : String) (db : Db) : Bool × Db :=
  let audits2 : List AuditRecord :=
    match db.audits.find? (auditKey u w) with
    | some r =>
      match r.id with
      | some i =>
        db.audits.map
          (fun a => if a.id == some i then { a with logout_time := some T } else a)
      | none => db.audits
    | none =>
      db.audits ++ [mkAudit (some db.nextAuditId) u w none (some T)
        (lookupExpectedLogin u db)]
  let nextId' : Nat :=
    match db.audits.find? (auditKey u w) with
    | some _ => db.nextAuditId
    | none => db.nextAuditId + 1
  match audits2.find? (auditKey u w) with
  | some v =>
    if v.logout_time == some T then
      (true, { db with audits := audits2, nextAuditId := nextId' })
    else (false, db)
  | none => (false, db)

/-- One key/value pair of the `**kwargs` field map of `update_audit_record`,
one constructor per updatable column of the `audits` table. -/
inductive FieldUpd where
  | loginTime (v : Option String)
  | logoutTime (v : Option String)
  | selfNotified (v : Option Int)
  | supervisorNotified (v : Option Int)
  | secondSupervisorNotified (v : Option Int)
  | isSupervisorAcknowledged (v : Option Int)
  | isSecondSupervisorAcknowledged (v : Option Int)
  | lastSupervisorNotificationTime (v : Option String)
  | lastSecondSupervisorNotificationTime (v : Option String)
  | expectedLoginTime (v : Option String)
  | emailSupervisorNotified (v : Option Int)
  | emailSecondSupervisorNotified (v : Option Int)
deriving DecidableEq, Repr

/-- `SET column = value` for one field map entry. -/
def applyUpd (a : AuditRecord) : FieldUpd → AuditRecord
  | .loginTime v => { a with login_time := v }
  | .logoutTime v => { a with logout_time := v }
  | .selfNotified v => { a with self_notified := v }
  | .supervisorNotified v => { a with supervisor_notified := v }
  | .secondSupervisorNotified v => { a with second_supervisor_notified := v }
  | .isSupervisorAcknowledged v => { a with is_supervisor_acknowledged := v }
  | .isSecondSupervisorAcknowledged v =>
      { a with is_second_supervisor_acknowledged := v }
  | .lastSupervisorNotificationTime v =>
      { a with last_supervisor_notification_time := v }
  | .lastSecondSupervisorNotificationTime v =>
      { a with last_second_supervisor_notification_time := v }
  | .expectedLoginTime v => { a with expected_login_time := v }
  | .emailSupervisorNotified v => { a with email_supervisor_notified := v }
  | .emailSecondSupervisorNotified v =>
      { a with email_second_supervisor_notified := v }

/-- Apply a whole field map, left to right. -/
def applyUpds (a : AuditRecord) (M : List FieldUpd) : AuditRecord :=
  M.foldl applyUpd a

/-- The column a field map entry targets (kwargs keys are distinct, which
translates to distinct tags). -/
def updTag : FieldUpd → Nat
  | .loginTime _ => 0
  | .logoutTime _ => 1
  | .selfNotified _ => 2
  | .supervisorNotified _ => 3
  | .secondSupervisorNotified _ => 4
  | .isSupervisorAcknowledged _ => 5
  | .isSecondSupervisorAcknowledged _ => 6
  | .lastSupervisorNotificationTime _ => 7
  | .lastSecondSupervisorNotificationTime _ => 8
  | .expectedLoginTime _ => 9
  | .emailSupervisorNotified _ => 10
  | .emailSecondSupervisorNotified _ => 11

/-- "The stored value of the entry's column equals the entry's value" — the
re-read comparison the post-write verification is about. -/
def updMatches (a : AuditRecord) : FieldUpd → Prop
  | .loginTime v => a.login_time = v
  | .logoutTime v => a.logout_time = v
  | .selfNotified v => a.self_notified = v
  | .supervisorNotified v => a.supervisor_notified = v
  | .secondSupervisorNotified v => a.second_supervisor_notified = v
  | .isSupervisorAcknowledged v => a.is_supervisor_acknowledged = v
  | .isSecondSupervisorAcknowledged v => a.is_second_supervisor_acknowledged = v
  | .lastSupervisorNotificationTime v =>
      a.last_supervisor_notification_time = v
  | .lastSecondSupervisorNotificationTime v =>
      a.last_second_supervisor_notification_time = v
  | .expectedLoginTime v => a.expected_login_time = v
  | .emailSupervisorNotified v => a.email_supervisor_notified = v
  | .emailSecondSupervisorNotified v => a.email_second_supervisor_notified = v

instance (a : AuditRecord) (f : FieldUpd) : Decidable (updMatches a f) := by
  cases f <;> (unfold updMatches; infer_instance)

/-- `update_audit_record`: an empty field map returns early with Python's
`None`; a NULL `audit_id` returns `False`; otherwise the UPDATE runs and the
verification re-reads the row by id, committing when a row is found and
rolling back otherwise. -/
def update_audit_record (audit_id : Option Nat) (M : List FieldUpd) (db : Db) :
    Option Bool × Db :=
  if M.isEmpty then (none, db)
  else
    match audit_id with
    | none => (some false, db)
    | some i =>
      let audits2 := db.audits.map
        (fun a => if a.id == some i then applyUpds a M else a)
      match audits2.find? (fun a => a.id == some i) with
      | some _ => (some true, { db with audits := audits2 })
      | none => (some false, db)

/-- Python truthiness of the possible results of `update_audit_record`
(`None` and `False` are both falsy). -/
def pyTruthy : Option Bool → Bool
  | some true => true
  | _ => false

/-- `get_users_without_login`: users whose configured `user_login_time` is
non-NULL and `<=` the current time-of-day string, and who either have no
today's audit row with a login or have a today's row whose login is NULL. -/
def get_users_without_login (now today : String) (db : Db) : List User :=
  db.users.filter (fun u =>
    match u.user_login_time with
    | some t =>
      decide (t ≤ now) &&
        (!(db.audits.any (fun a => a.workday == today && a.login_time.isSome &&
            a.user_slack_id == u.user_slack_id)) ||
         db.audits.any (fun a => a.user_slack_id == u.user_slack_id &&
            a.login_time.isNone && a.workday == today))
    | none => false)

/-! ## Stuck-record repair (`database.py`) -/

/-- `SUPERVISOR_ESCALATION_MINUTES` from `config.py`. -/
def SUPERVISOR_ESCALATION_MINUTES : Int := 2

/-- The stuck-record WHERE clause shared by `check_database_integrity` and
`fix_stuck_records`: today's rows with `supervisor_notified > 0`,
`second_supervisor_notified = 0` and `is_supervisor_acknowledged = 0`
(SQL comparisons on NULL are not satisfied). -/
def stuckCode (today : String) (a : AuditRecord) : Bool :=
  a.workday == today &&
  (match a.supervisor_notified with | some n => 0 < n | none => false) &&
  a.second_supervisor_notified == some 0 &&
  a.is_supervisor_acknowledged == some 0

/-- The stuck-record reset applied by `fix_stuck_records` to each stuck id. -/
def resetStuck (now : String) (a : AuditRecord) : AuditRecord :=
  { a with
    second_supervisor_notified := some 0
    is_second_supervisor_acknowledged := some 0
    last_supervisor_notification_time := some now }

/-- The stuck-record part of `check_database_integrity`: the count of stuck
rows, reported in the issues dict only when positive. -/
def check_database_integrity (today : String) (db : Db) : Option Nat :=
  let c := (db.audits.filter (stuckCode today)).length
  if 0 < c then some c else none

/-- `fix_stuck_records`: select the ids of today's stuck rows, then UPDATE
each id (an id-NULL match updates nothing but still counts), returning the
count of processed ids. -/
def fix_stuck_records (today now : String) (db : Db) : Nat × Db :=
  let stuckIds := (db.audits.filter (stuckCode today)).map (fun a => a.id)
  let audits2 := db.audits.map
    (fun a => if a.id.isSome && stuckIds.contains a.id then resetStuck now a else a)
  (stuckIds.length, { db with audits := audits2 })

/-- The spec's stuck classification, written from the spec's words for
comparison with `stuckCode`: primary supervisor notified, the escalation
window elapsed since that notification, second tier not notified, primary not
acknowledged.  `elapsedMinutes` is the time since the last supervisor
notification. -/
def specStuck (a : AuditRecord) (elapsedMinutes window : Int) : Prop :=
  (∃ n, a.supervisor_notified = some n ∧ 0 < n) ∧
  window ≤ elapsedMinutes ∧
  a.second_supervisor_notified = some 0 ∧
  a.is_supervisor_acknowledged = some 0

instance (a : AuditRecord) (e w : Int) : Decidable (specStuck a e w) :=
  decidable_of_iff
    (((match a.supervisor_notified with
       | some n => decide (0 < n)
       | none => false) = true) ∧ w ≤ e ∧
     a.second_supervisor_notified = some 0 ∧
     a.is_supervisor_acknowledged = some 0) <| by
    unfold specStuck
    rcases a.supervisor_notified with _ | n <;> simp

/-! ## Repair tool (`database_repair.py`) -/

/-- The per-row copy of `manual_fix`'s rebuild: the `id` column is not copied
(the new table assigns fresh ids) and every notification counter and flag is
`COALESCE`d to 0. -/
def coalesceCopy (a : AuditRecord) : AuditRecord :=
  { a with
    id := none
    self_notified := some (a.self_notified.getD 0)
    supervisor_notified := some (a.supervisor_notified.getD 0)
    second_supervisor_notified := some (a.second_supervisor_notified.getD 0)
    is_supervisor_acknowledged := some (a.is_supervisor_acknowledged.getD 0)
    is_second_supervisor_acknowledged :=
      some (a.is_second_supervisor_acknowledged.getD 0)
    email_supervisor_notified := some (a.email_supervisor_notified.getD 0)
    email_second_supervisor_notified :=
      some (a.email_second_supervisor_notified.getD 0) }

/-- Fresh AUTOINCREMENT ids for the rebuilt table, assigned in row order. -/
def assignIds : Nat → List AuditRecord → List AuditRecord
  | _, [] => []
  | n, a :: as => { a with id := some n } :: assignIds (n + 1) as

/-- Erase the id, for comparing rebuilt rows with their originals. -/
def eraseId (a : AuditRecord) : AuditRecord := { a with id := none }

/-- `fix_user_record`: create today's audit row for the given user when none
exists (any existing row, corrupt or not, is left alone). -/
def fix_user_record (u today : String) (db : Db) : Db :=
  match db.audits.find? (auditKey u today) with
  | some _ => db
  | none =>
    { db with
      audits := db.audits ++
        [mkAudit (some db.nextAuditId) u today none none
          (lookupExpectedLogin u db)]
      nextAuditId := db.nextAuditId + 1 }

/-- Step 3 of `manual_fix`: the rows of the old table whose `id` is valid. -/
def goodRows (db : Db) : List AuditRecord :=
  db.audits.filter (fun a => a.id.isSome)

/-- Step 4 of `manual_fix`: the NULL-id rows whose (user, workday) is not
already present among the copied valid-id rows. -/
def keptNullRows (db : Db) : List AuditRecord :=
  (db.audits.filter (fun a => a.id.isNone)).filter (fun a =>
    !((goodRows db).any (fun b => b.user_slack_id == a.user_slack_id &&
        b.workday == a.workday)))

/-- The rebuilt `audits` table of `manual_fix`: both row groups copied
without their `id` column (`coalesceCopy`), fresh AUTOINCREMENT ids. -/
def rebuiltAudits (db : Db) : List AuditRecord :=
  assignIds 1 ((goodRows db ++ keptNullRows db).map coalesceCopy)

/-- `manual_fix`: rebuild the `audits` table — copy the valid-id rows, then
the NULL-id rows whose (user, workday) is not already present among the
copied valid-id rows, `COALESCE`ing counters to 0 and assigning fresh ids —
then run `fix_user_record` for the hard-coded user `"U06081ECKT3"`. -/
def manual_fix (today : String) (db : Db) : Db :=
  fix_user_record "U06081ECKT3" today
    { db with
      audits := rebuiltAudits db
      nextAuditId := (goodRows db ++ keptNullRows db).length + 1 }

/-! ## Concrete sample states used by witnesses and counterexamples -/

/-- A stored, unused acknowledgment token. -/
def tok1 : AckToken :=
  { token := "tk1", user_slack_id := "U1", is_second_supervisor := 0,
    created_at := "2026-01-01 09:00:00", used := 0 }

/-- A database holding just `tok1`. -/
def tokDb : Db :=
  { users := [], audits := [], tokens := [tok1], nextAuditId := 1 }

/-- The empty database. -/
def emptyDb : Db := { users := [], audits := [], tokens := [], nextAuditId := 1 }

/-- A fresh audit row with a valid id. -/
def a1 : AuditRecord := mkAudit (some 1) "U1" "2026-01-02" none none none

/-- A database holding just `a1`. -/
def rowDb : Db := { users := [], audits := [a1], tokens := [], nextAuditId := 2 }

/-- A record whose primary supervisor was notified at 09:00:00 on 2026-01-02,
with no second-tier notification and no acknowledgment. -/
def stuckRow : AuditRecord :=
  { id := some 3, user_slack_id := "U2", workday := "2026-01-02",
    login_time := none, logout_time := none, self_notified := some 3,
    supervisor_notified := some 1, second_supervisor_notified := some 0,
    is_supervisor_acknowledged := some 0,
    is_second_supervisor_acknowledged := some 0,
    last_supervisor_notification_time := some "2026-01-02 09:00:00",
    last_second_supervisor_notification_time := none,
    expected_login_time := some "09:00",
    email_supervisor_notified := some 0,
    email_second_supervisor_notified := some 0 }

/-- A database holding just `stuckRow`. -/
def stuckDb : Db :=
  { users := [], audits := [stuckRow], tokens := [], nextAuditId := 4 }

/-- A corrupt audit row: NULL id but recoverable notification counters. -/
def corruptRow : AuditRecord :=
  { id := none, user_slack_id := "U3", workday := "2026-01-02",
    login_time := none, logout_time := none, self_notified := some 3,
    supervisor_notified := some 1, second_supervisor_notified := some 0,
    is_supervisor_acknowledged := some 0,
    is_second_supervisor_acknowledged := some 0,
    last_supervisor_notification_time := some "2026-01-02 09:00:00",
    last_second_supervisor_notification_time := none,
    expected_login_time := some "09:00",
    email_supervisor_notified := some 0,
    email_second_supervisor_notified := some 0 }

/-- A database holding just `corruptRow`. -/
def corruptDb : Db :=
  { users := [], audits := [corruptRow], tokens := [], nextAuditId := 7 }

/-- "Once an acknowledgment flag is true it stays true": the new table is the
old one transformed row-by-row by a flag-preserving map, possibly with fresh
rows appended. -/
def keepsAckTrue (old new : List AuditRecord) : Prop :=
  ∃ g t, new = old.map g ++ t ∧ ∀ a : AuditRecord,
    (a.is_supervisor_acknowledged = some 1 →
      (g a).is_supervisor_acknowledged = some 1) ∧
    (a.is_second_supervisor_acknowledged = some 1 →
      (g a).is_second_supervisor_acknowledged = some 1)

/-! ## Helper lemmas -/

theorem filter_filter_not (l : List AuditRecord) (p : AuditRecord → Bool) :
    (l.filter (fun a => !(p a))).filter p = [] := by
  induction l with
  | nil => rfl
  | cons a as ih => by_cases h : p a <;> simp [List.filter_cons, h, ih]

theorem find?_filter_not (l : List AuditRecord) (p : AuditRecord → Bool) :
    (l.filter (fun a => !(p a))).find? p = none := by
  rw [← List.filter_head?, filter_filter_not]
  rfl

theorem filter_singleton_of_le_one {l : List AuditRecord}
    {p : AuditRecord → Bool} {a : AuditRecord}
    (h1 : (l.filter p).length ≤ 1) (hf : l.find? p = some a) :
    l.filter p = [a] := by
  have ha : a ∈ l.filter p := by
    rw [List.mem_filter]
    exact ⟨List.mem_of_find?_eq_some hf, List.find?_some hf⟩
  match hl : l.filter p with
  | [] => rw [hl] at ha; cases ha
  | [x] => rw [hl] at ha; simp at ha; rw [ha]
  | x :: y :: rest => rw [hl] at h1; simp at h1

theorem find?_append_left_none {l₁ l₂ : List AuditRecord}
    {p : AuditRecord → Bool} (h : l₁.find? p = none) :
    (l₁ ++ l₂).find? p = l₂.find? p := by
  rw [List.find?_append, h, Option.none_or]

theorem auditKey_mkAudit (i : Option Nat) (u w : String)
    (login logout elt : Option String) :
    auditKey u w (mkAudit i u w login logout elt) = true := by
  simp [auditKey, mkAudit]

/-! ### C1 -/

/-- C1: for a stored, not-yet-consumed token the consume operation succeeds
exactly once: the first invocation returns the token's payload (user id and
supervisor tier) and marks it used, a second invocation with the same token
returns Invalid and leaves the state unchanged, and an invocation with a token
that was never stored returns Invalid on the unchanged state. -/
theorem validateAndConsume_once (db : Db) (t : String) :
    (∀ tok, get_acknowledgment_token t db = some tok → tok.used = 0 →
      (validateAndConsume t db).1
          = some (tok.user_slack_id, tok.is_second_supervisor) ∧
      get_acknowledgment_token t (validateAndConsume t db).2
          = some { tok with used := 1 } ∧
      validateAndConsume t (validateAndConsume t db).2
          = (none, (validateAndConsume t db).2)) ∧
    (get_acknowledgment_token t db = none →
      validateAndConsume t db = (none, db)) := by
  constructor
  · intro tok hfind hused
    have hmap : get_acknowledgment_token t (mark_token_used t db).2
        = some { tok with used := 1 } := by
      simp only [get_acknowledgment_token, mark_token_used] at *
      rw [List.find?_map]
      have hfun : ((fun k : AckToken => k.token == t) ∘
            (fun k : AckToken => if k.token == t then { k with used := 1 } else k))
          = (fun k : AckToken => k.token == t) := by
        funext k
        by_cases hk : k.token = t <;> simp [hk]
      rw [hfun, hfind]
      have ht : tok.token = t := by
        have := List.find?_some hfind
        simpa using this
      simp [ht]
    refine ⟨?_, ?_, ?_⟩
    · simp [validateAndConsume, hfind, hused]
    · have hstep : (validateAndConsume t db).2 = (mark_token_used t db).2 := by
        simp [validateAndConsume, hfind, hused]
      rw [hstep]; exact hmap
    · have hstep : (validateAndConsume t db).2 = (mark_token_used t db).2 := by
        simp [validateAndConsume, hfind, hused]
      rw [hstep]
      simp [validateAndConsume, hmap]
  · intro hnone
    simp [validateAndConsume, hnone]

/-- Concrete instance of C1: a stored unused token is consumed exactly once. -/
theorem validateAndConsume_once_witness :
    get_acknowledgment_token "tk1" tokDb = some tok1 ∧ tok1.used = 0 ∧
    (validateAndConsume "tk1" tokDb).1 = some ("U1", 0) ∧
    (validateAndConsume "tk1" (validateAndConsume "tk1" tokDb).2).1 = none := by
  have h := (validateAndConsume_once tokDb "tk1").1 tok1 (by decide) (by decide)
  refine ⟨by decide, by decide, h.1, ?_⟩
  rw [h.2.2]

/-! ### C2 -/

/-- C2: on a state satisfying the one-record-per-(user, workday) invariant,
calling `create_audit_record` twice in sequence returns the same record
identifier both times, the second call is a no-op on the state, and exactly
one audit record exists for the pair afterwards, carrying that identifier. -/
theorem create_audit_record_idempotent (db : Db) (u w : String)
    (elt : Option String) (h1 : (rowsFor u w db.audits).length ≤ 1) :
    ∃ i r,
      (create_audit_record u w elt db).1 = some i ∧
      (create_audit_record u w elt (create_audit_record u w elt db).2).1
        = some i ∧
      (create_audit_record u w elt (create_audit_record u w elt db).2).2
        = (create_audit_record u w elt db).2 ∧
      rowsFor u w (create_audit_record u w elt db).2.audits = [r] ∧
      r.id = some i := by
  have hkey := auditKey_mkAudit (some db.nextAuditId) u w none none elt
  have hfresh :
      (db.audits.filter (fun a => !(auditKey u w a)) ++
        [mkAudit (some db.nextAuditId) u w none none elt]).find? (auditKey u w)
      = some (mkAudit (some db.nextAuditId) u w none none elt) := by
    rw [find?_append_left_none (find?_filter_not _ _)]
    simp [List.find?_cons, hkey]
  have hrows :
      rowsFor u w (db.audits.filter (fun a => !(auditKey u w a)) ++
        [mkAudit (some db.nextAuditId) u w none none elt])
      = [mkAudit (some db.nextAuditId) u w none none elt] := by
    unfold rowsFor
    rw [List.filter_append, filter_filter_not]
    simp [List.filter_cons, hkey]
  set new := mkAudit (some db.nextAuditId) u w none none elt with hnew
  set db' : Db :=
    { db with
      audits := db.audits.filter (fun a => !(auditKey u w a)) ++ [new]
      nextAuditId := db.nextAuditId + 1 } with hdb'
  have hsecond : create_audit_record u w elt db' = (some db.nextAuditId, db') := by
    simp only [create_audit_record, hdb']
    rw [hfresh]
    simp [hnew, mkAudit]
  rcases hfind : db.audits.find? (auditKey u w) with _ | a0
  · -- no row yet: the first call inserts a fresh one
    have hfirst : create_audit_record u w elt db = (some db.nextAuditId, db') := by
      simp only [create_audit_record, hfind]
      rw [hfresh]
      simp [hnew, hdb', mkAudit]
    refine ⟨db.nextAuditId, new, ?_, ?_, ?_, ?_, rfl⟩
    · rw [hfirst]
    · rw [hfirst]; rw [hsecond]
    · rw [hfirst]; rw [hsecond]
    · rw [hfirst]; exact hrows
  · rcases hid : a0.id with _ | i
    · -- a row with a NULL id: delete and recreate
      have hfirst : create_audit_record u w elt db = (some db.nextAuditId, db') := by
        simp only [create_audit_record, hfind, hid]
        rw [hfresh]
        simp [hnew, hdb', mkAudit]
      refine ⟨db.nextAuditId, new, ?_, ?_, ?_, ?_, rfl⟩
      · rw [hfirst]
      · rw [hfirst]; rw [hsecond]
      · rw [hfirst]; rw [hsecond]
      · rw [hfirst]; exact hrows
    · -- a row with a valid id: both calls return it unchanged
      have hfirst : create_audit_record u w elt db = (some i, db) := by
        simp only [create_audit_record, hfind, hid]
      refine ⟨i, a0, ?_, ?_, ?_, ?_, hid⟩
      · rw [hfirst]
      · rw [hfirst]; rw [hfirst]
      · rw [hfirst]; rw [hfirst]
      · rw [hfirst]; exact filter_singleton_of_le_one h1 hfind

/-- Concrete instance of C2 on the empty database. -/
theorem create_audit_record_idempotent_witness :
    (rowsFor "U1" "2026-01-02" emptyDb.audits).length ≤ 1 ∧
    ∃ i r,
      (create_audit_record "U1" "2026-01-02" none emptyDb).1 = some i ∧
      (create_audit_record "U1" "2026-01-02" none
        (create_audit_record "U1" "2026-01-02" none emptyDb).2).1 = some i ∧
      (create_audit_record "U1" "2026-01-02" none
        (create_audit_record "U1" "2026-01-02" none emptyDb).2).2
        = (create_audit_record "U1" "2026-01-02" none emptyDb).2 ∧
      rowsFor "U1" "2026-01-02"
        (create_audit_record "U1" "2026-01-02" none emptyDb).2.audits = [r] ∧
      r.id = some i :=
  ⟨by decide,
   create_audit_record_idempotent emptyDb "U1" "2026-01-02" none (by decide)⟩

/-! ### Field-map lemmas for `update_audit_record` -/

theorem applyUpd_id (a : AuditRecord) (u : FieldUpd) : (applyUpd a u).id = a.id := by
  cases u <;> rfl

theorem applyUpds_id (a : AuditRecord) (M : List FieldUpd) :
    (applyUpds a M).id = a.id := by
  induction M generalizing a with
  | nil => rfl
  | cons v rest ih =>
    simp only [applyUpds, List.foldl_cons] at *
    rw [ih (applyUpd a v), applyUpd_id]

theorem updMatches_applyUpd_self (a : AuditRecord) (u : FieldUpd) :
    updMatches (applyUpd a u) u := by
  cases u <;> simp [applyUpd, updMatches]

theorem updMatches_applyUpd_ne (a : AuditRecord) (u v : FieldUpd)
    (h : updTag u ≠ updTag v) :
    updMatches (applyUpd a v) u ↔ updMatches a u := by
  cases u <;> cases v <;> simp [updTag, applyUpd, updMatches] at h ⊢

theorem updMatches_applyUpds_notin (b : AuditRecord) (M : List FieldUpd)
    (u : FieldUpd) (h : ∀ w ∈ M, updTag w ≠ updTag u) :
    updMatches (applyUpds b M) u ↔ updMatches b u := by
  induction M generalizing b with
  | nil => simp [applyUpds]
  | cons v rest ih =>
    simp only [applyUpds, List.foldl_cons] at *
    exact Iff.trans
      (ih (applyUpd b v) (fun w hw => h w (List.mem_cons_of_mem _ hw)))
      (updMatches_applyUpd_ne b u v
        (fun he => h v (List.mem_cons_self v rest) he.symm))

theorem updMatches_applyUpds (a : AuditRecord) (M : List FieldUpd)
    (hnd : (M.map updTag).Nodup) : ∀ u ∈ M, updMatches (applyUpds a M) u := by
  induction M generalizing a with
  | nil => intro u hu; cases hu
  | cons v rest ih =>
    rw [List.map_cons, List.nodup_cons] at hnd
    intro u hu
    rcases List.mem_cons.mp hu with rfl | hu
    · have hrest : ∀ w ∈ rest, updTag w ≠ updTag u := by
        intro w hw he
        exact hnd.1 (he ▸ List.mem_map_of_mem updTag hw)
      simp only [applyUpds, List.foldl_cons]
      exact (updMatches_applyUpds_notin (applyUpd a u) rest u hrest).mpr
        (updMatches_applyUpd_self a u)
    · simp only [applyUpds, List.foldl_cons]
      exact ih (applyUpd a v) hnd.2 u hu

theorem update_audit_record_success (db : Db) (R : Nat) (M : List FieldUpd)
    (hM : M ≠ []) (a : AuditRecord) (ha : a ∈ db.audits)
    (haid : a.id = some R) :
    update_audit_record (some R) M db = (some true,
      { db with audits := db.audits.map (fun b =>
        if b.id == some R then applyUpds b M else b) }) := by
  have hempty : M.isEmpty = false := by
    cases M with
    | nil => exact absurd rfl hM
    | cons x xs => rfl
  have hsome : ((db.audits.map (fun b =>
      if b.id == some R then applyUpds b M else b)).find?
      (fun b => b.id == some R)).isSome := by
    rw [List.find?_isSome]
    refine ⟨_, List.mem_map_of_mem _ ha, ?_⟩
    simp [haid, applyUpds_id]
  rcases hfind : (db.audits.map (fun b =>
      if b.id == some R then applyUpds b M else b)).find?
      (fun b => b.id == some R) with _ | found
  · rw [hfind] at hsome; cases hsome
  · simp only [update_audit_record, hempty]
    rw [hfind]
    rfl

/-! ### C10 -/

/-- C10: an empty field map makes `update_audit_record` return Python's
`None` without touching the database — a result that is neither the success
value `True` nor the failure value `False`, yet is indistinguishable from
failure by truthiness. -/
theorem update_audit_record_empty_map (db : Db) (audit_id : Option Nat) :
    update_audit_record audit_id [] db = (none, db) ∧
    (update_audit_record audit_id [] db).1 ≠ some true ∧
    (update_audit_record audit_id [] db).1 ≠ some false ∧
    pyTruthy (update_audit_record audit_id [] db).1 = pyTruthy (some false) ∧
    (update_audit_record audit_id [] db).2 = db :=
  ⟨rfl, by simp [update_audit_record], by simp [update_audit_record], rfl, rfl⟩

/-! ### C4 -/

/-- C4: with a non-empty field map, `update_audit_record` fails and leaves the
state unchanged when the record id is NULL or no row carries it; when a row
with the id exists it reports success and every updated row's changed columns
re-read exactly as the values of the (distinct-keyed) field map. -/
theorem update_audit_record_verified (db : Db) (M : List FieldUpd) (R : Nat) :
    (M ≠ [] → update_audit_record none M db = (some false, db)) ∧
    (M ≠ [] → (∀ a ∈ db.audits, a.id ≠ some R) →
      update_audit_record (some R) M db = (some false, db)) ∧
    (M ≠ [] → (M.map updTag).Nodup →
      ∀ a ∈ db.audits, a.id = some R →
        (update_audit_record (some R) M db).1 = some true ∧
        ∀ a' ∈ (update_audit_record (some R) M db).2.audits,
          a'.id = some R → ∀ u ∈ M, updMatches a' u) := by
  have hempty : ∀ (hM : M ≠ []), M.isEmpty = false := by
    intro hM
    cases M with
    | nil => exact absurd rfl hM
    | cons x xs => rfl
  refine ⟨?_, ?_, ?_⟩
  · intro hM
    simp [update_audit_record, hempty hM]
  · intro hM hnone
    have hfind :
        (db.audits.map (fun a =>
          if a.id == some R then applyUpds a M else a)).find?
          (fun a => a.id == some R) = none := by
      rw [List.find?_eq_none]
      intro x hx
      rcases List.mem_map.mp hx with ⟨a, ha, rfl⟩
      have hne : a.id ≠ some R := hnone a ha
      simp [hne]
    simp only [update_audit_record, hempty hM]
    rw [hfind]
    rfl
  · intro hM hnd a ha haid
    have hcall := update_audit_record_success db R M hM a ha haid
    constructor
    · rw [hcall]
    · intro a' ha' haid' u hu
      rw [hcall] at ha'
      rcases List.mem_map.mp ha' with ⟨b, hb, rfl⟩
      by_cases hbid : b.id == some R
      · simp only [hbid, if_true]
        exact updMatches_applyUpds b M hnd u hu
      · rw [if_neg hbid] at haid' ⊢
        exact absurd haid' (by simpa using hbid)

/-- Concrete instance of C4: updating a missing id fails; updating an
existing row verifies its new login time. -/
theorem update_audit_record_verified_witness :
    ([FieldUpd.loginTime (some "09:01")] ≠ ([] : List FieldUpd)) ∧
    (update_audit_record none [FieldUpd.loginTime (some "09:01")] emptyDb
      = (some false, emptyDb)) := by
  have h := update_audit_record_verified emptyDb
    [FieldUpd.loginTime (some "09:01")] 7
  exact ⟨by decide, h.1 (by decide)⟩

/-! ### C3 -/

theorem auditKey_set_login (u w : String) (i : Nat) (T : String) :
    ∀ a : AuditRecord, auditKey u w
      (if a.id == some i then { a with login_time := some T } else a)
      = auditKey u w a := by
  intro a
  by_cases h : a.id == some i <;> simp [auditKey, h]

theorem auditKey_set_logout (u w : String) (i : Nat) (T : String) :
    ∀ a : AuditRecord, auditKey u w
      (if a.id == some i then { a with logout_time := some T } else a)
      = auditKey u w a := by
  intro a
  by_cases h : a.id == some i <;> simp [auditKey, h]

theorem rowsFor_nil_find? {u w : String} {l : List AuditRecord}
    (h : rowsFor u w l = []) : l.find? (auditKey u w) = none := by
  rw [← List.filter_head?]
  unfold rowsFor at h
  rw [h]
  rfl

/-- C3: `update_user_login` and `record_user_logout` have upsert semantics —
with no (user, workday) row a fresh one is inserted carrying the timestamp,
with an existing (valid-id, unique) row that row's time field is set — and
the verify-then-commit structure: success implies the re-read stored value for
the key equals the intended timestamp, and failure leaves the state
unchanged. -/
theorem login_logout_upsert_verified (db : Db) (u w T : String) :
    ((rowsFor u w db.audits = [] →
        (update_user_login u w T db).1 = true ∧
        (update_user_login u w T db).2.audits = db.audits ++
          [mkAudit (some db.nextAuditId) u w (some T) none
            (lookupExpectedLogin u db)]) ∧
      (∀ r i, db.audits.find? (auditKey u w) = some r → r.id = some i →
        (rowsFor u w db.audits).length ≤ 1 →
        (update_user_login u w T db).1 = true ∧
        rowsFor u w (update_user_login u w T db).2.audits
          = [{ r with login_time := some T }]) ∧
      ((update_user_login u w T db).1 = true →
        ∃ v, (update_user_login u w T db).2.audits.find? (auditKey u w)
            = some v ∧ v.login_time = some T) ∧
      ((update_user_login u w T db).1 = false →
        (update_user_login u w T db).2 = db)) ∧
    ((rowsFor u w db.audits = [] →
        (record_user_logout u w T db).1 = true ∧
        (record_user_logout u w T db).2.audits = db.audits ++
          [mkAudit (some db.nextAuditId) u w none (some T)
            (lookupExpectedLogin u db)]) ∧
      (∀ r i, db.audits.find? (auditKey u w) = some r → r.id = some i →
        (rowsFor u w db.audits).length ≤ 1 →
        (record_user_logout u w T db).1 = true ∧
        rowsFor u w (record_user_logout u w T db).2.audits
          = [{ r with logout_time := some T }]) ∧
      ((record_user_logout u w T db).1 = true →
        ∃ v, (record_user_logout u w T db).2.audits.find? (auditKey u w)
            = some v ∧ v.logout_time = some T) ∧
      ((record_user_logout u w T db).1 = false →
        (record_user_logout u w T db).2 = db)) := by
  constructor
  · refine ⟨?_, ?_, ?_, ?_⟩
    · -- insert case
      intro hrows
      have hfind := rowsFor_nil_find? hrows
      have hfind2 : (db.audits ++ [mkAudit (some db.nextAuditId) u w (some T)
          none (lookupExpectedLogin u db)]).find? (auditKey u w)
          = some (mkAudit (some db.nextAuditId) u w (some T) none
            (lookupExpectedLogin u db)) := by
        rw [find?_append_left_none hfind]
        simp [List.find?_cons, auditKey_mkAudit]
      have hcall : update_user_login u w T db =
          (true, { db with
            audits := db.audits ++ [mkAudit (some db.nextAuditId) u w (some T)
              none (lookupExpectedLogin u db)]
            nextAuditId := db.nextAuditId + 1 }) := by
        simp only [update_user_login, hfind]
        rw [hfind2]
        simp [mkAudit]
      rw [hcall]
      exact ⟨rfl, rfl⟩
    · -- update case
      intro r i hfind hid hle
      have hkeyg := auditKey_set_login u w i T
      have hfindmap : (db.audits.map (fun a => if a.id == some i then
          { a with login_time := some T } else a)).find? (auditKey u w)
          = some { r with login_time := some T } := by
        rw [List.find?_map]
        rw [show ((auditKey u w) ∘ (fun a : AuditRecord =>
          if a.id == some i then { a with login_time := some T } else a))
          = auditKey u w from funext hkeyg]
        rw [hfind]
        simp [hid]
      have hcall : update_user_login u w T db =
          (true, { db with audits := db.audits.map (fun a =>
            if a.id == some i then { a with login_time := some T } else a) }) := by
        simp only [update_user_login, hfind, hid]
        rw [hfindmap]
        simp
      rw [hcall]
      refine ⟨rfl, ?_⟩
      unfold rowsFor
      rw [List.filter_map, show ((auditKey u w) ∘ (fun a : AuditRecord =>
          if a.id == some i then { a with login_time := some T } else a))
          = auditKey u w from funext hkeyg]
      have : db.audits.filter (auditKey u w) = [r] :=
        filter_singleton_of_le_one hle hfind
      rw [this]
      simp [hid]
    · -- success implies verified stored value
      intro hsucc
      rcases hf : db.audits.find? (auditKey u w) with _ | r
      · rcases hf2 : (db.audits ++ [mkAudit (some db.nextAuditId) u w (some T)
            none (lookupExpectedLogin u db)]).find? (auditKey u w) with _ | v
        · simp only [update_user_login, hf] at hsucc ⊢
          rw [hf2] at hsucc
          cases hsucc
        · by_cases hvt : v.login_time == some T
          · refine ⟨v, ?_, by simpa using hvt⟩
            simp only [update_user_login, hf]
            rw [hf2]
            simp [hvt, hf2]
          · simp only [update_user_login, hf] at hsucc
            rw [hf2] at hsucc
            simp [hvt] at hsucc
      · rcases hrid : r.id with _ | i
        · -- NULL id: the UPDATE touches nothing and the original row is re-read
          by_cases hvt : r.login_time == some T
          · refine ⟨r, ?_, by simpa using hvt⟩
            simp only [update_user_login, hf, hrid]
            simp [hvt, hf]
          · simp only [update_user_login, hf, hrid] at hsucc
            simp [hvt] at hsucc
        · have hkeyg := auditKey_set_login u w i T
          have hfindmap : (db.audits.map (fun a => if a.id == some i then
              { a with login_time := some T } else a)).find? (auditKey u w)
              = some { r with login_time := some T } := by
            rw [List.find?_map]
            rw [show ((auditKey u w) ∘ (fun a : AuditRecord =>
              if a.id == some i then { a with login_time := some T } else a))
              = auditKey u w from funext hkeyg]
            rw [hf]
            simp [hrid]
          have hcall : update_user_login u w T db =
              (true, { db with audits := db.audits.map (fun a =>
                if a.id == some i then { a with login_time := some T }
                else a) }) := by
            simp only [update_user_login, hf, hrid]
            rw [hfindmap]
            simp
          rw [hcall]
          exact ⟨{ r with login_time := some T }, hfindmap, rfl⟩
    · -- failure leaves the state unchanged
      intro hfail
      rcases hf : db.audits.find? (auditKey u w) with _ | r
      · rcases hf2 : (db.audits ++ [mkAudit (some db.nextAuditId) u w (some T)
            none (lookupExpectedLogin u db)]).find? (auditKey u w) with _ | v
        · simp only [update_user_login, hf]
          rw [hf2]
        · by_cases hvt : v.login_time == some T
          · simp only [update_user_login, hf] at hfail
            rw [hf2] at hfail
            simp [hvt] at hfail
          · simp only [update_user_login, hf]
            rw [hf2]
            simp [hvt]
      · rcases hrid : r.id with _ | i
        · by_cases hvt : r.login_time == some T
          · simp only [update_user_login, hf, hrid] at hfail
            simp [hvt] at hfail
          · simp only [update_user_login, hf, hrid]
            simp [hvt]
        · rcases hf2 : (db.audits.map (fun a => if a.id == some i then
              { a with login_time := some T } else a)).find? (auditKey u w)
              with _ | v
          · simp only [update_user_login, hf, hrid]
            rw [hf2]
          · by_cases hvt : v.login_time == some T
            · simp only [update_user_login, hf, hrid] at hfail
              rw [hf2] at hfail
              simp [hvt] at hfail
            · simp only [update_user_login, hf, hrid]
              rw [hf2]
              simp [hvt]
  · refine ⟨?_, ?_, ?_, ?_⟩
    · intro hrows
      have hfind := rowsFor_nil_find? hrows
      have hfind2 : (db.audits ++ [mkAudit (some db.nextAuditId) u w none
          (some T) (lookupExpectedLogin u db)]).find? (auditKey u w)
          = some (mkAudit (some db.nextAuditId) u w none (some T)
            (lookupExpectedLogin u db)) := by
        rw [find?_append_left_none hfind]
        simp [List.find?_cons, auditKey_mkAudit]
      have hcall : record_user_logout u w T db =
          (true, { db with
            audits := db.audits ++ [mkAudit (some db.nextAuditId) u w none
              (some T) (lookupExpectedLogin u db)]
            nextAuditId := db.nextAuditId + 1 }) := by
        simp only [record_user_logout, hfind]
        rw [hfind2]
        simp [mkAudit]
      rw [hcall]
      exact ⟨rfl, rfl⟩
    · intro r i hfind hid hle
      have hkeyg := auditKey_set_logout u w i T
      have hfindmap : (db.audits.map (fun a => if a.id == some i then
          { a with logout_time := some T } else a)).find? (auditKey u w)
          = some { r with logout_time := some T } := by
        rw [List.find?_map]
        rw [show ((auditKey u w) ∘ (fun a : AuditRecord =>
          if a.id == some i then { a with logout_time := some T } else a))
          = auditKey u w from funext hkeyg]
        rw [hfind]
        simp [hid]
      have hcall : record_user_logout u w T db =
          (true, { db with audits := db.audits.map (fun a =>
            if a.id == some i then { a with logout_time := some T } else a) }) := by
        simp only [record_user_logout, hfind, hid]
        rw [hfindmap]
        simp
      rw [hcall]
      refine ⟨rfl, ?_⟩
      unfold rowsFor
      rw [List.filter_map, show ((auditKey u w) ∘ (fun a : AuditRecord =>
          if a.id == some i then { a with logout_time := some T } else a))
          = auditKey u w from funext hkeyg]
      have : db.audits.filter (auditKey u w) = [r] :=
        filter_singleton_of_le_one hle hfind
      rw [this]
      simp [hid]
    · intro hsucc
      rcases hf : db.audits.find? (auditKey u w) with _ | r
      · rcases hf2 : (db.audits ++ [mkAudit (some db.nextAuditId) u w none
            (some T) (lookupExpectedLogin u db)]).find? (auditKey u w) with _ | v
        · simp only [record_user_logout, hf] at hsucc ⊢
          rw [hf2] at hsucc
          cases hsucc
        · by_cases hvt : v.logout_time == some T
          · refine ⟨v, ?_, by simpa using hvt⟩
            simp only [record_user_logout, hf]
            rw [hf2]
            simp [hvt, hf2]
          · simp only [record_user_logout, hf] at hsucc
            rw [hf2] at hsucc
            simp [hvt] at hsucc
      · rcases hrid : r.id with _ | i
        · by_cases hvt : r.logout_time == some T
          · refine ⟨r, ?_, by simpa using hvt⟩
            simp only [record_user_logout, hf, hrid]
            simp [hvt, hf]
          · simp only [record_user_logout, hf, hrid] at hsucc
            simp [hvt] at hsucc
        · have hkeyg := auditKey_set_logout u w i T
          have hfindmap : (db.audits.map (fun a => if a.id == some i then
              { a with logout_time := some T } else a)).find? (auditKey u w)
              = some { r with logout_time := some T } := by
            rw [List.find?_map]
            rw [show ((auditKey u w) ∘ (fun a : AuditRecord =>
              if a.id == some i then { a with logout_time := some T } else a))
              = auditKey u w from funext hkeyg]
            rw [hf]
            simp [hrid]
          have hcall : record_user_logout u w T db =
              (true, { db with audits := db.audits.map (fun a =>
                if a.id == some i then { a with logout_time := some T }
                else a) }) := by
            simp only [record_user_logout, hf, hrid]
            rw [hfindmap]
            simp
          rw [hcall]
          exact ⟨{ r with logout_time := some T }, hfindmap, rfl⟩
    · intro hfail
      rcases hf : db.audits.find? (auditKey u w) with _ | r
      · rcases hf2 : (db.audits ++ [mkAudit (some db.nextAuditId) u w none
            (some T) (lookupExpectedLogin u db)]).find? (auditKey u w) with _ | v
        · simp only [record_user_logout, hf]
          rw [hf2]
        · by_cases hvt : v.logout_time == some T
          · simp only [record_user_logout, hf] at hfail
            rw [hf2] at hfail
            simp [hvt] at hfail
          · simp only [record_user_logout, hf]
            rw [hf2]
            simp [hvt]
      · rcases hrid : r.id with _ | i
        · by_cases hvt : r.logout_time == some T
          · simp only [record_user_logout, hf, hrid] at hfail
            simp [hvt] at hfail
          · simp only [record_user_logout, hf, hrid]
            simp [hvt]
        · rcases hf2 : (db.audits.map (fun a => if a.id == some i then
              { a with logout_time := some T } else a)).find? (auditKey u w)
              with _ | v
          · simp only [record_user_logout, hf, hrid]
            rw [hf2]
          · by_cases hvt : v.logout_time == some T
            · simp only [record_user_logout, hf, hrid] at hfail
              rw [hf2] at hfail
              simp [hvt] at hfail
            · simp only [record_user_logout, hf, hrid]
              rw [hf2]
              simp [hvt]

/-- Concrete instance of C3: insert on the empty database, update on a
database holding one valid-id row. -/
theorem login_logout_upsert_verified_witness :
    (rowsFor "U1" "2026-01-02" emptyDb.audits = [] ∧
      (update_user_login "U1" "2026-01-02" "09:00" emptyDb).1 = true) ∧
    (rowDb.audits.find? (auditKey "U1" "2026-01-02") = some a1 ∧
      a1.id = some 1 ∧
      (rowsFor "U1" "2026-01-02" rowDb.audits).length ≤ 1 ∧
      (record_user_logout "U1" "2026-01-02" "17:00" rowDb).1 = true) := by
  refine ⟨⟨by decide, ?_⟩, by decide, by decide, by decide, ?_⟩
  · exact ((login_logout_upsert_verified emptyDb "U1" "2026-01-02"
      "09:00").1.1 (by decide)).1
  · exact ((login_logout_upsert_verified rowDb "U1" "2026-01-02"
      "17:00").2.2.1 a1 1 (by decide) (by decide) (by decide)).1

/-! ### C9 -/

/-- C9: on a state holding a unique (valid-id) audit row for its key, a
successful `update_audit_record` setting `login_time` to `X`, immediately
followed by `get_audit_record` for that row's user and workday, returns a
record whose `login_time` equals `X` exactly. -/
theorem update_then_get_roundtrip (db : Db) (rec : AuditRecord) (R : Nat)
    (X : String)
    (hfind : db.audits.find? (auditKey rec.user_slack_id rec.workday)
      = some rec)
    (hid : rec.id = some R) :
    (update_audit_record (some R) [FieldUpd.loginTime (some X)] db).1
      = some true ∧
    ∃ r, (get_audit_record rec.user_slack_id rec.workday
        (update_audit_record (some R)
          [FieldUpd.loginTime (some X)] db).2).1 = some r ∧
      r.login_time = some X := by
  have hMne : ([FieldUpd.loginTime (some X)] : List FieldUpd) ≠ [] := by simp
  have hmem := List.mem_of_find?_eq_some hfind
  have hcall := update_audit_record_success db R
    [FieldUpd.loginTime (some X)] hMne rec hmem hid
  have hkeyg : ∀ a : AuditRecord,
      auditKey rec.user_slack_id rec.workday
        (if a.id == some R then applyUpds a [FieldUpd.loginTime (some X)]
         else a)
      = auditKey rec.user_slack_id rec.workday a := by
    intro a
    by_cases h : a.id == some R <;> simp [h, applyUpds, applyUpd, auditKey]
  have hfindmap : (db.audits.map (fun b =>
      if b.id == some R then applyUpds b [FieldUpd.loginTime (some X)]
      else b)).find? (auditKey rec.user_slack_id rec.workday)
      = some { rec with login_time := some X } := by
    rw [List.find?_map]
    rw [show ((auditKey rec.user_slack_id rec.workday) ∘ (fun b : AuditRecord =>
      if b.id == some R then applyUpds b [FieldUpd.loginTime (some X)] else b))
      = auditKey rec.user_slack_id rec.workday from funext hkeyg]
    rw [hfind]
    simp [hid, applyUpds, applyUpd]
  constructor
  · rw [hcall]
  · rw [hcall]
    refine ⟨{ rec with login_time := some X }, ?_, rfl⟩
    simp only [get_audit_record]
    rw [hfindmap]
    simp [hid]

/-- Concrete instance of C9 on a database holding one valid-id row. -/
theorem update_then_get_roundtrip_witness :
    (rowDb.audits.find? (auditKey a1.user_slack_id a1.workday) = some a1 ∧
      a1.id = some 1) ∧
    ((update_audit_record (some 1)
        [FieldUpd.loginTime (some "09:07")] rowDb).1 = some true ∧
      ∃ r, (get_audit_record a1.user_slack_id a1.workday
          (update_audit_record (some 1)
            [FieldUpd.loginTime (some "09:07")] rowDb).2).1 = some r ∧
        r.login_time = some "09:07") :=
  ⟨⟨by decide, by decide⟩,
   update_then_get_roundtrip rowDb a1 1 "09:07" (by decide) (by decide)⟩

/-! ### C5 -/

/-- C5: `get_users_without_login` returns exactly the users whose configured
expected login time-of-day is at most the current time-of-day (the code's
string comparison on "HH:MM" values) and who either have no audit record for
today carrying a login timestamp, or have a record for today whose login
timestamp is still unset. -/
theorem mem_get_users_without_login (now today : String) (db : Db) (u : User) :
    u ∈ get_users_without_login now today db ↔
      u ∈ db.users ∧ ∃ t, u.user_login_time = some t ∧ t ≤ now ∧
        ((¬ ∃ a ∈ db.audits, a.user_slack_id = u.user_slack_id ∧
            a.workday = today ∧ a.login_time ≠ none) ∨
         (∃ a ∈ db.audits, a.user_slack_id = u.user_slack_id ∧
            a.workday = today ∧ a.login_time = none)) := by
  have hA : (db.audits.any (fun a => a.workday == today &&
      a.login_time.isSome && a.user_slack_id == u.user_slack_id)) = true ↔
      ∃ a ∈ db.audits, a.user_slack_id = u.user_slack_id ∧ a.workday = today ∧
        a.login_time ≠ none := by
    rw [List.any_eq_true]
    constructor
    · rintro ⟨a, ha, hp⟩
      simp only [Bool.and_eq_true, beq_iff_eq, Option.isSome_iff_ne_none] at hp
      exact ⟨a, ha, hp.2, hp.1.1, hp.1.2⟩
    · rintro ⟨a, ha, h1, h2, h3⟩
      refine ⟨a, ha, ?_⟩
      simp only [Bool.and_eq_true, beq_iff_eq, Option.isSome_iff_ne_none]
      exact ⟨⟨h2, h3⟩, h1⟩
  have hB : (db.audits.any (fun a => a.user_slack_id == u.user_slack_id &&
      a.login_time.isNone && a.workday == today)) = true ↔
      ∃ a ∈ db.audits, a.user_slack_id = u.user_slack_id ∧ a.workday = today ∧
        a.login_time = none := by
    rw [List.any_eq_true]
    constructor
    · rintro ⟨a, ha, hp⟩
      simp only [Bool.and_eq_true, beq_iff_eq, Option.isNone_iff_eq_none] at hp
      exact ⟨a, ha, hp.1.1, hp.2, hp.1.2⟩
    · rintro ⟨a, ha, h1, h2, h3⟩
      refine ⟨a, ha, ?_⟩
      simp only [Bool.and_eq_true, beq_iff_eq, Option.isNone_iff_eq_none]
      exact ⟨⟨h1, h3⟩, h2⟩
  unfold get_users_without_login
  rw [List.mem_filter]
  rcases hu : u.user_login_time with _ | t
  · simp [hu]
  · simp only [hu]
    constructor
    · rintro ⟨hmem, hpred⟩
      rw [Bool.and_eq_true, Bool.or_eq_true, Bool.not_eq_true'] at hpred
      obtain ⟨ht, hcond⟩ := hpred
      refine ⟨hmem, t, rfl, of_decide_eq_true ht, ?_⟩
      rcases hcond with h | h
      · left
        intro hx
        have h1 := hA.mpr hx
        rw [h] at h1
        cases h1
      · right
        exact hB.mp h
    · rintro ⟨hmem, t', ht', hle, hcond⟩
      obtain rfl := Option.some.inj ht'
      refine ⟨hmem, ?_⟩
      rw [Bool.and_eq_true, Bool.or_eq_true, Bool.not_eq_true']
      refine ⟨decide_eq_true hle, ?_⟩
      rcases hcond with h | h
      · left
        cases hAb : (db.audits.any (fun a => a.workday == today &&
            a.login_time.isSome && a.user_slack_id == u.user_slack_id)) with
        | false => rfl
        | true => exact absurd (hA.mp hAb) h
      · right
        exact hB.mpr h

/-! ### C6 -/

theorem eq_of_eq_id {l : List AuditRecord}
    (hp : l.Pairwise (fun x y => x.id.isSome → x.id ≠ y.id))
    {a b : AuditRecord} (ha : a ∈ l) (hb : b ∈ l) (haid : a.id.isSome)
    (heq : a.id = b.id) : a = b := by
  induction l with
  | nil => cases ha
  | cons x xs ih =>
    rw [List.pairwise_cons] at hp
    rcases List.mem_cons.mp ha with rfl | ha' <;>
      rcases List.mem_cons.mp hb with rfl | hb'
    · rfl
    · exact absurd heq (hp.1 b hb' haid)
    · exact absurd heq.symm (hp.1 a ha' (heq ▸ haid))
    · exact ih hp.2 ha' hb'

theorem stuckIds_contains {l : List AuditRecord}
    (hp : l.Pairwise (fun x y => x.id.isSome → x.id ≠ y.id))
    (q : AuditRecord → Bool) {a : AuditRecord} (ha : a ∈ l)
    (haid : a.id.isSome) :
    ((l.filter q).map (fun b => b.id)).contains a.id = q a := by
  by_cases hq : q a
  · have hmem : a.id ∈ (l.filter q).map (fun b => b.id) :=
      List.mem_map_of_mem _ (List.mem_filter.mpr ⟨ha, hq⟩)
    rw [hq]
    exact List.elem_eq_true_of_mem hmem
  · rw [Bool.not_eq_true] at hq
    rw [hq, Bool.eq_false_iff]
    intro hcont
    have hmem : a.id ∈ (l.filter q).map (fun b => b.id) := by
      rw [← List.elem_iff]
      exact hcont
    rcases List.mem_map.mp hmem with ⟨b, hbf, hbid⟩
    have hb := List.mem_filter.mp hbf
    have hab : a = b := eq_of_eq_id hp ha hb.1 haid hbid.symm
    rw [← hab] at hb
    rw [hq] at hb
    cases hb.2

/-- Counterexample to C6: at "2026-01-02 09:00:00" — the very moment the
primary supervisor was notified, zero minutes elapsed, less than the
configured 2-minute escalation window — the code still classifies the record
as stuck and resets it, while the spec's classification (which requires the
window to have elapsed) rejects it. -/
theorem stuck_classification_ignores_window :
    stuckRow.last_supervisor_notification_time = some "2026-01-02 09:00:00" ∧
    stuckCode "2026-01-02" stuckRow = true ∧
    ¬ specStuck stuckRow 0 SUPERVISOR_ESCALATION_MINUTES ∧
    (fix_stuck_records "2026-01-02" "2026-01-02 09:00:00" stuckDb).1 = 1 ∧
    (fix_stuck_records "2026-01-02" "2026-01-02 09:00:00" stuckDb).2.audits
      = [resetStuck "2026-01-02 09:00:00" stuckRow] :=
  ⟨rfl, by decide, by decide, rfl, by decide⟩

/-- C6 amended: the stuck classification requires only that the record is
today's, the primary supervisor has been notified, the second tier has not,
and the primary has not acknowledged — regardless of how much time has
elapsed since the notification; `fix_stuck_records` applies exactly the reset
`resetStuck` (second-tier counter and flag to 0, supervisor-notification
timestamp stamped to now — `supervisor_notified` itself is not cleared) to
exactly the stuck valid-id records, touching no other row, and reports their
count, which `check_database_integrity` also reports when positive. -/
theorem stuck_repair_amended (db : Db) (today now : String)
    (hp : db.audits.Pairwise (fun x y => x.id.isSome → x.id ≠ y.id)) :
    (∀ a, stuckCode today a = true ↔ (a.workday = today ∧
      (∃ n, a.supervisor_notified = some n ∧ 0 < n) ∧
      a.second_supervisor_notified = some 0 ∧
      a.is_supervisor_acknowledged = some 0)) ∧
    (fix_stuck_records today now db).2.audits = db.audits.map (fun a =>
      if stuckCode today a && a.id.isSome then resetStuck now a else a) ∧
    (fix_stuck_records today now db).1
      = (db.audits.filter (stuckCode today)).length ∧
    check_database_integrity today db
      = (if 0 < (db.audits.filter (stuckCode today)).length
         then some (db.audits.filter (stuckCode today)).length else none) := by
  refine ⟨?_, ?_, ?_, rfl⟩
  · intro a
    unfold stuckCode
    rcases hsn : a.supervisor_notified with _ | n <;>
      simp [hsn, Bool.and_eq_true, beq_iff_eq, and_assoc]
  · simp only [fix_stuck_records]
    refine List.map_congr_left ?_
    intro a ha
    rcases hid : a.id.isSome with _ | _
    · simp [hid]
    · rw [stuckIds_contains hp (stuckCode today) ha hid]
      by_cases hq : stuckCode today a <;> simp [hq, hid]
  · simp [fix_stuck_records]

/-- Concrete instance of the amended C6 on the one-stuck-record database. -/
theorem stuck_repair_amended_witness :
    stuckDb.audits.Pairwise (fun x y => x.id.isSome → x.id ≠ y.id) ∧
    ((fix_stuck_records "2026-01-02" "2026-01-02 09:05:00" stuckDb).2.audits
      = stuckDb.audits.map (fun a =>
        if stuckCode "2026-01-02" a && a.id.isSome
        then resetStuck "2026-01-02 09:05:00" a else a) ∧
     (fix_stuck_records "2026-01-02" "2026-01-02 09:05:00" stuckDb).1
      = (stuckDb.audits.filter (stuckCode "2026-01-02")).length) :=
  ⟨by decide,
   (stuck_repair_amended stuckDb "2026-01-02" "2026-01-02 09:05:00"
      (by decide)).2.1,
   (stuck_repair_amended stuckDb "2026-01-02" "2026-01-02 09:05:00"
      (by decide)).2.2.1⟩

/-! ### C7 -/

theorem find?_of_rowsFor {u w : String} {l : List AuditRecord}
    {r : AuditRecord} (h : rowsFor u w l = [r]) :
    l.find? (auditKey u w) = some r := by
  rw [← List.filter_head?]
  unfold rowsFor at h
  rw [h]
  rfl

theorem find?_fresh (db : Db) (u w : String)
    (login logout elt : Option String) :
    (db.audits.filter (fun a => !(auditKey u w a)) ++
      [mkAudit (some db.nextAuditId) u w login logout elt]).find?
      (auditKey u w)
    = some (mkAudit (some db.nextAuditId) u w login logout elt) := by
  rw [find?_append_left_none (find?_filter_not _ _)]
  simp [List.find?_cons, auditKey_mkAudit]

theorem rowsFor_fresh (db : Db) (u w : String)
    (login logout elt : Option String) :
    rowsFor u w (db.audits.filter (fun a => !(auditKey u w a)) ++
      [mkAudit (some db.nextAuditId) u w login logout elt])
    = [mkAudit (some db.nextAuditId) u w login logout elt] := by
  unfold rowsFor
  rw [List.filter_append, filter_filter_not]
  simp [List.filter_cons, auditKey_mkAudit]

theorem filter_comm_lists (p q : AuditRecord → Bool) (l : List AuditRecord) :
    (l.filter q).filter p = (l.filter p).filter q := by
  rw [List.filter_filter, List.filter_filter]
  exact List.filter_congr (fun a _ => Bool.and_comm _ _)

theorem auditKey_coalesceCopy (u w : String) (a : AuditRecord) :
    auditKey u w (coalesceCopy a) = auditKey u w a := by
  simp [auditKey, coalesceCopy]

theorem assignIds_filter_key (u w : String) (n : Nat)
    (l : List AuditRecord) :
    ((assignIds n l).filter (auditKey u w)).map eraseId
      = (l.filter (auditKey u w)).map eraseId ∧
    ∀ r ∈ assignIds n l, r.id.isSome := by
  induction l generalizing n with
  | nil => exact ⟨rfl, by intro r hr; cases hr⟩
  | cons a as ih =>
    simp only [assignIds]
    constructor
    · rw [List.filter_cons, List.filter_cons]
      have hkey : auditKey u w { a with id := some n } = auditKey u w a := by
        simp [auditKey]
      rw [hkey]
      by_cases h : auditKey u w a
      · rw [if_pos h, if_pos h]
        simp only [List.map_cons]
        rw [(ih (n + 1)).1]
        have : eraseId { a with id := some n } = eraseId a := by
          simp [eraseId]
        rw [this]
      · rw [if_neg h, if_neg h]
        exact (ih (n + 1)).1
    · intro r hr
      rcases List.mem_cons.mp hr with rfl | hr'
      · rfl
      · exact (ih (n + 1)).2 r hr'

theorem map_eraseId_singleton {l : List AuditRecord} {x : AuditRecord}
    (h : l.map eraseId = [x]) :
    ∃ r, l = [r] ∧ eraseId r = x := by
  cases l with
  | nil => simp at h
  | cons r rest =>
    cases rest with
    | nil =>
      simp only [List.map_cons, List.map_nil, List.cons.injEq, and_true] at h
      exact ⟨r, rfl, h⟩
    | cons s rest2 => simp at h

theorem auditKey_ne_user {u : String} (w : String) (hu : u ≠ "U06081ECKT3")
    (i : Option Nat) (d : String) (login logout elt : Option String) :
    auditKey u w (mkAudit i "U06081ECKT3" d login logout elt) = false := by
  have hne : (("U06081ECKT3" : String) == u) = false :=
    beq_eq_false_iff_ne.mpr (Ne.symm hu)
  simp [auditKey, mkAudit, hne]

theorem manual_fix_rowsFor (db : Db) (u w today : String)
    (hu : u ≠ "U06081ECKT3") :
    rowsFor u w (manual_fix today db).audits
      = rowsFor u w (rebuiltAudits db) := by
  unfold manual_fix fix_user_record
  split
  · rfl
  · unfold rowsFor
    rw [List.filter_append]
    simp [List.filter_cons, auditKey_ne_user w hu]

/-- Counterexample to C7: `get_audit_record`'s null-id repair branch zeroes
the notification counters of the recreated row even though the corrupt row's
values (here `self_notified = 3`) were present, hence recoverable. -/
theorem null_id_repair_discards_counters :
    corruptRow.id = none ∧ corruptRow.self_notified = some 3 ∧
    rowsFor "U3" "2026-01-02" corruptDb.audits = [corruptRow] ∧
    rowsFor "U3" "2026-01-02"
        (get_audit_record "U3" "2026-01-02" corruptDb).2.audits
      = [mkAudit (some 7) "U3" "2026-01-02" none none none] ∧
    (mkAudit (some 7) "U3" "2026-01-02" none none none).self_notified
      = some 0 ∧
    ¬ (mkAudit (some 7) "U3" "2026-01-02" none none none).self_notified
      = some 3 := by
  refine ⟨rfl, rfl, by decide, by decide, rfl, by decide⟩

/-- C7 amended: on a state whose only (user, workday) row has a NULL id, both
repair paths delete the corrupt row and recreate it (never patching the id in
place), leaving exactly one row with a valid non-null identifier — but the
`get_audit_record` branch recreates it with all counters 0 and timestamps
NULL regardless of recoverability, while the `manual_fix` rebuild preserves
every non-id column, coalescing NULL counters to 0 (`coalesceCopy`). -/
theorem null_id_repair_amended (db : Db) (u w today : String)
    (a0 : AuditRecord) (hrows : rowsFor u w db.audits = [a0])
    (hid : a0.id = none) (hu : u ≠ "U06081ECKT3") :
    ((get_audit_record u w db).1
        = some (mkAudit (some db.nextAuditId) u w none none
          (lookupExpectedLogin u db)) ∧
      rowsFor u w (get_audit_record u w db).2.audits
        = [mkAudit (some db.nextAuditId) u w none none
          (lookupExpectedLogin u db)]) ∧
    (∃ r, rowsFor u w (manual_fix today db).audits = [r] ∧
      r.id.isSome ∧ eraseId r = coalesceCopy a0) := by
  have hfind := find?_of_rowsFor hrows
  constructor
  · -- the get_audit_record repair branch
    have hfresh := find?_fresh db u w none none (lookupExpectedLogin u db)
    have hrows2 := rowsFor_fresh db u w none none (lookupExpectedLogin u db)
    have hcall : get_audit_record u w db
        = (some (mkAudit (some db.nextAuditId) u w none none
            (lookupExpectedLogin u db)),
           { db with
             audits := db.audits.filter (fun a => !(auditKey u w a)) ++
               [mkAudit (some db.nextAuditId) u w none none
                 (lookupExpectedLogin u db)]
             nextAuditId := db.nextAuditId + 1 }) := by
      simp only [get_audit_record, hfind, hid]
      rw [hfresh]
      simp [mkAudit]
    rw [hcall]
    exact ⟨rfl, hrows2⟩
  · -- the manual_fix rebuild
    have hkeya0 : auditKey u w a0 = true := by
      have : a0 ∈ db.audits.filter (auditKey u w) := by
        unfold rowsFor at hrows
        rw [hrows]
        exact List.mem_singleton.mpr rfl
      exact (List.mem_filter.mp this).2
    have hgoodkey : (goodRows db).filter (auditKey u w) = [] := by
      unfold goodRows
      rw [filter_comm_lists]
      unfold rowsFor at hrows
      rw [hrows]
      simp [List.filter_cons, hid]
    have hnotex : ((goodRows db).any (fun b =>
        b.user_slack_id == a0.user_slack_id &&
        b.workday == a0.workday)) = false := by
      rw [List.any_eq_false]
      intro b hb hp
      rw [Bool.and_eq_true, beq_iff_eq, beq_iff_eq] at hp
      have hkeyb : auditKey u w b = true := by
        rw [auditKey] at hkeya0 ⊢
        rw [Bool.and_eq_true, beq_iff_eq, beq_iff_eq] at hkeya0 ⊢
        exact ⟨hp.1.trans hkeya0.1, hp.2.trans hkeya0.2⟩
      have : b ∈ (goodRows db).filter (auditKey u w) :=
        List.mem_filter.mpr ⟨hb, hkeyb⟩
      rw [hgoodkey] at this
      cases this
    have hkeptkey : (keptNullRows db).filter (auditKey u w) = [a0] := by
      unfold keptNullRows
      rw [filter_comm_lists]
      rw [filter_comm_lists (auditKey u w) (fun a => a.id.isNone)]
      unfold rowsFor at hrows
      rw [hrows]
      simp [List.filter_cons, hid, hnotex]
    have hbase : ((goodRows db ++ keptNullRows db).map coalesceCopy).filter
        (auditKey u w) = [coalesceCopy a0] := by
      rw [List.filter_map]
      have heq : List.filter (auditKey u w ∘ coalesceCopy)
          (goodRows db ++ keptNullRows db)
          = List.filter (auditKey u w) (goodRows db ++ keptNullRows db) :=
        List.filter_congr (fun a _ => auditKey_coalesceCopy u w a)
      rw [heq, List.filter_append, hgoodkey, hkeptkey]
      rfl
    obtain ⟨hmapeq, hsome⟩ := assignIds_filter_key u w 1
      ((goodRows db ++ keptNullRows db).map coalesceCopy)
    have hmap2 : (rowsFor u w (rebuiltAudits db)).map eraseId
        = [coalesceCopy a0] := by
      unfold rowsFor rebuiltAudits
      rw [hmapeq, hbase]
      simp [eraseId, coalesceCopy]
    rw [manual_fix_rowsFor db u w today hu]
    obtain ⟨r, hr, hre⟩ := map_eraseId_singleton hmap2
    refine ⟨r, hr, ?_, hre⟩
    have hrmem : r ∈ rowsFor u w (rebuiltAudits db) := by
      rw [hr]
      exact List.mem_singleton.mpr rfl
    unfold rowsFor rebuiltAudits at hrmem
    exact hsome r (List.mem_filter.mp hrmem).1

/-- Concrete instance of the amended C7 on the one-corrupt-row database. -/
theorem null_id_repair_amended_witness :
    (rowsFor "U3" "2026-01-02" corruptDb.audits = [corruptRow] ∧
      corruptRow.id = none ∧ "U3" ≠ "U06081ECKT3") ∧
    (∃ r, rowsFor "U3" "2026-01-02"
        (manual_fix "2026-01-02" corruptDb).audits = [r] ∧
      r.id.isSome ∧ eraseId r = coalesceCopy corruptRow) :=
  ⟨⟨by decide, rfl, by decide⟩,
   (null_id_repair_amended corruptDb "U3" "2026-01-02" "2026-01-02"
      corruptRow (by decide) rfl (by decide)).2⟩

/-! ### C8 -/

theorem keepsAckTrue_self (l : List AuditRecord) : keepsAckTrue l l :=
  ⟨fun a => a, [], by simp, fun _ => ⟨fun h => h, fun h => h⟩⟩

theorem applyUpd_keeps_ack_first (a : AuditRecord) (v : FieldUpd)
    (hv : ∀ x, v = FieldUpd.isSupervisorAcknowledged x → x = some 1)
    (hflag : a.is_supervisor_acknowledged = some 1) :
    (applyUpd a v).is_supervisor_acknowledged = some 1 := by
  cases v with
  | isSupervisorAcknowledged x => simpa [applyUpd] using hv x rfl
  | loginTime x => simpa [applyUpd] using hflag
  | logoutTime x => simpa [applyUpd] using hflag
  | selfNotified x => simpa [applyUpd] using hflag
  | supervisorNotified x => simpa [applyUpd] using hflag
  | secondSupervisorNotified x => simpa [applyUpd] using hflag
  | isSecondSupervisorAcknowledged x => simpa [applyUpd] using hflag
  | lastSupervisorNotificationTime x => simpa [applyUpd] using hflag
  | lastSecondSupervisorNotificationTime x => simpa [applyUpd] using hflag
  | expectedLoginTime x => simpa [applyUpd] using hflag
  | emailSupervisorNotified x => simpa [applyUpd] using hflag
  | emailSecondSupervisorNotified x => simpa [applyUpd] using hflag

theorem applyUpd_keeps_ack_second (a : AuditRecord) (v : FieldUpd)
    (hv : ∀ x, v = FieldUpd.isSecondSupervisorAcknowledged x → x = some 1)
    (hflag : a.is_second_supervisor_acknowledged = some 1) :
    (applyUpd a v).is_second_supervisor_acknowledged = some 1 := by
  cases v with
  | isSecondSupervisorAcknowledged x => simpa [applyUpd] using hv x rfl
  | loginTime x => simpa [applyUpd] using hflag
  | logoutTime x => simpa [applyUpd] using hflag
  | selfNotified x => simpa [applyUpd] using hflag
  | supervisorNotified x => simpa [applyUpd] using hflag
  | secondSupervisorNotified x => simpa [applyUpd] using hflag
  | isSupervisorAcknowledged x => simpa [applyUpd] using hflag
  | lastSupervisorNotificationTime x => simpa [applyUpd] using hflag
  | lastSecondSupervisorNotificationTime x => simpa [applyUpd] using hflag
  | expectedLoginTime x => simpa [applyUpd] using hflag
  | emailSupervisorNotified x => simpa [applyUpd] using hflag
  | emailSecondSupervisorNotified x => simpa [applyUpd] using hflag

theorem applyUpds_keeps_ack (M : List FieldUpd) : ∀ a : AuditRecord,
    (∀ v, FieldUpd.isSupervisorAcknowledged v ∈ M → v = some 1) →
    (∀ v, FieldUpd.isSecondSupervisorAcknowledged v ∈ M → v = some 1) →
    (a.is_supervisor_acknowledged = some 1 →
      (applyUpds a M).is_supervisor_acknowledged = some 1) ∧
    (a.is_second_supervisor_acknowledged = some 1 →
      (applyUpds a M).is_second_supervisor_acknowledged = some 1) := by
  induction M with
  | nil => exact fun a _ _ => ⟨fun h => h, fun h => h⟩
  | cons v rest ih =>
    intro a h1 h2
    have hr1 : ∀ x, FieldUpd.isSupervisorAcknowledged x ∈ rest →
        x = some 1 := fun x hx => h1 x (List.mem_cons_of_mem _ hx)
    have hr2 : ∀ x, FieldUpd.isSecondSupervisorAcknowledged x ∈ rest →
        x = some 1 := fun x hx => h2 x (List.mem_cons_of_mem _ hx)
    have hv1 : ∀ x, v = FieldUpd.isSupervisorAcknowledged x → x = some 1 :=
      fun x hx => h1 x (by rw [← hx]; exact List.mem_cons_self _ _)
    have hv2 : ∀ x, v = FieldUpd.isSecondSupervisorAcknowledged x →
        x = some 1 :=
      fun x hx => h2 x (by rw [← hx]; exact List.mem_cons_self _ _)
    constructor
    · intro hflag
      exact (ih (applyUpd a v) hr1 hr2).1
        (applyUpd_keeps_ack_first a v hv1 hflag)
    · intro hflag
      exact (ih (applyUpd a v) hr1 hr2).2
        (applyUpd_keeps_ack_second a v hv2 hflag)

theorem update_user_login_audits_shape (db : Db) (u w T : String) :
    (update_user_login u w T db).2.audits = db.audits ∨
    (update_user_login u w T db).2.audits = db.audits ++
      [mkAudit (some db.nextAuditId) u w (some T) none
        (lookupExpectedLogin u db)] ∨
    ∃ i, (update_user_login u w T db).2.audits = db.audits.map (fun a =>
      if a.id == some i then { a with login_time := some T } else a) := by
  rcases hf : db.audits.find? (auditKey u w) with _ | r
  · rcases hf2 : (db.audits ++ [mkAudit (some db.nextAuditId) u w (some T)
        none (lookupExpectedLogin u db)]).find? (auditKey u w) with _ | v
    · left
      simp only [update_user_login, hf]
      rw [hf2]
    · by_cases hvt : v.login_time == some T
      · right; left
        simp only [update_user_login, hf]
        rw [hf2]
        simp [hvt]
      · left
        simp only [update_user_login, hf]
        rw [hf2]
        simp [hvt]
  · rcases hrid : r.id with _ | i
    · left
      simp only [update_user_login, hf, hrid]
      by_cases hvt : r.login_time == some T <;> simp [hvt]
    · rcases hf2 : (db.audits.map (fun a => if a.id == some i then
          { a with login_time := some T } else a)).find? (auditKey u w)
          with _ | v
      · left
        simp only [update_user_login, hf, hrid]
        rw [hf2]
      · by_cases hvt : v.login_time == some T
        · right; right
          refine ⟨i, ?_⟩
          simp only [update_user_login, hf, hrid]
          rw [hf2]
          simp [hvt]
        · left
          simp only [update_user_login, hf, hrid]
          rw [hf2]
          simp [hvt]

theorem record_user_logout_audits_shape (db : Db) (u w T : String) :
    (record_user_logout u w T db).2.audits = db.audits ∨
    (record_user_logout u w T db).2.audits = db.audits ++
      [mkAudit (some db.nextAuditId) u w none (some T)
        (lookupExpectedLogin u db)] ∨
    ∃ i, (record_user_logout u w T db).2.audits = db.audits.map (fun a =>
      if a.id == some i then { a with logout_time := some T } else a) := by
  rcases hf : db.audits.find? (auditKey u w) with _ | r
  · rcases hf2 : (db.audits ++ [mkAudit (some db.nextAuditId) u w none
        (some T) (lookupExpectedLogin u db)]).find? (auditKey u w) with _ | v
    · left
      simp only [record_user_logout, hf]
      rw [hf2]
    · by_cases hvt : v.logout_time == some T
      · right; left
        simp only [record_user_logout, hf]
        rw [hf2]
        simp [hvt]
      · left
        simp only [record_user_logout, hf]
        rw [hf2]
        simp [hvt]
  · rcases hrid : r.id with _ | i
    · left
      simp only [record_user_logout, hf, hrid]
      by_cases hvt : r.logout_time == some T <;> simp [hvt]
    · rcases hf2 : (db.audits.map (fun a => if a.id == some i then
          { a with logout_time := some T } else a)).find? (auditKey u w)
          with _ | v
      · left
        simp only [record_user_logout, hf, hrid]
        rw [hf2]
      · by_cases hvt : v.logout_time == some T
        · right; right
          refine ⟨i, ?_⟩
          simp only [record_user_logout, hf, hrid]
          rw [hf2]
          simp [hvt]
        · left
          simp only [record_user_logout, hf, hrid]
          rw [hf2]
          simp [hvt]

/-- C8: on non-corrupt rows the acknowledgment flags are monotonic under
normal store operations: a read (`get_audit_record`) or a re-creation attempt
(`create_audit_record`) on a valid-id row leaves the state untouched;
recording a login or logout transforms the table by a flag-preserving map
(plus possibly a fresh row); and a generic field update whose field map only
ever assigns the value 1 to an acknowledgment flag also keeps true flags
true.  (`fix_stuck_records`, the explicit repair, is the operation that may
reset `is_second_supervisor_acknowledged`.) -/
theorem ack_flags_monotonic (db : Db) (u w T : String) :
    (∀ a0, db.audits.find? (auditKey u w) = some a0 → a0.id ≠ none →
      (get_audit_record u w db).2 = db) ∧
    (∀ a0 elt, db.audits.find? (auditKey u w) = some a0 → a0.id ≠ none →
      (create_audit_record u w elt db).2 = db) ∧
    keepsAckTrue db.audits (update_user_login u w T db).2.audits ∧
    keepsAckTrue db.audits (record_user_logout u w T db).2.audits ∧
    (∀ R M, (∀ v, FieldUpd.isSupervisorAcknowledged v ∈ M → v = some 1) →
      (∀ v, FieldUpd.isSecondSupervisorAcknowledged v ∈ M → v = some 1) →
      keepsAckTrue db.audits (update_audit_record R M db).2.audits) := by
  refine ⟨?_, ?_, ?_, ?_, ?_⟩
  · intro a0 hfind hne
    have hnone : a0.id.isNone = false := by
      cases h : a0.id with
      | none => exact absurd h hne
      | some i => rfl
    simp [get_audit_record, hfind, hnone]
  · intro a0 elt hfind hne
    obtain ⟨i, hi⟩ := Option.ne_none_iff_exists'.mp hne
    simp [create_audit_record, hfind, hi]
  · rcases update_user_login_audits_shape db u w T with h | h | ⟨i, h⟩
    · rw [h]; exact keepsAckTrue_self db.audits
    · refine ⟨fun a => a, [mkAudit (some db.nextAuditId) u w (some T) none
        (lookupExpectedLogin u db)], ?_, fun _ => ⟨fun hx => hx, fun hx => hx⟩⟩
      rw [h]
      simp
    · refine ⟨(fun a => if a.id == some i then
        { a with login_time := some T } else a), [], ?_, ?_⟩
      · rw [h]; simp
      · intro a
        constructor <;> intro hx <;> by_cases hb : a.id == some i <;>
          simp [hb, hx]
  · rcases record_user_logout_audits_shape db u w T with h | h | ⟨i, h⟩
    · rw [h]; exact keepsAckTrue_self db.audits
    · refine ⟨fun a => a, [mkAudit (some db.nextAuditId) u w none (some T)
        (lookupExpectedLogin u db)], ?_, fun _ => ⟨fun hx => hx, fun hx => hx⟩⟩
      rw [h]
      simp
    · refine ⟨(fun a => if a.id == some i then
        { a with logout_time := some T } else a), [], ?_, ?_⟩
      · rw [h]; simp
      · intro a
        constructor <;> intro hx <;> by_cases hb : a.id == some i <;>
          simp [hb, hx]
  · intro R M h1 h2
    by_cases hM : M.isEmpty
    · have hcall : update_audit_record R M db = (none, db) := by
        simp [update_audit_record, hM]
      rw [hcall]
      exact keepsAckTrue_self db.audits
    · have hMf : M.isEmpty = false := by
        rwa [Bool.not_eq_true] at hM
      rcases R with _ | i
      · have hcall : update_audit_record none M db = (some false, db) := by
          simp [update_audit_record, hMf]
        rw [hcall]
        exact keepsAckTrue_self db.audits
      · rcases hf2 : (db.audits.map (fun a => if a.id == some i then
            applyUpds a M else a)).find? (fun a => a.id == some i) with _ | v
        · have hcall : update_audit_record (some i) M db = (some false, db) := by
            simp only [update_audit_record, hMf]
            rw [hf2]
            rfl
          rw [hcall]
          exact keepsAckTrue_self db.audits
        · have hcall : update_audit_record (some i) M db = (some true,
              { db with audits := db.audits.map (fun a =>
                if a.id == some i then applyUpds a M else a) }) := by
            simp only [update_audit_record, hMf]
            rw [hf2]
            rfl
          rw [hcall]
          refine ⟨(fun a => if a.id == some i then applyUpds a M else a),
            [], by simp, ?_⟩
          intro a
          constructor <;> intro hx <;> by_cases hb : a.id == some i
          · simp only [hb, if_true]
            exact (applyUpds_keeps_ack M a h1 h2).1 hx
          · simp [hb, hx]
          · simp only [hb, if_true]
            exact (applyUpds_keeps_ack M a h1 h2).2 hx
          · simp [hb, hx]

/-- Concrete instance of C8 on a database holding one valid-id row. -/
theorem ack_flags_monotonic_witness :
    (rowDb.audits.find? (auditKey "U1" "2026-01-02") = some a1 ∧
      a1.id ≠ none ∧
      (get_audit_record "U1" "2026-01-02" rowDb).2 = rowDb) ∧
    keepsAckTrue rowDb.audits
      (update_user_login "U1" "2026-01-02" "09:00" rowDb).2.audits ∧
    ((∀ v, FieldUpd.isSupervisorAcknowledged v ∈
        [FieldUpd.loginTime (some "09:00")] → v = some 1) ∧
      keepsAckTrue rowDb.audits
        (update_audit_record (some 1)
          [FieldUpd.loginTime (some "09:00")] rowDb).2.audits) := by
  have h := ack_flags_monotonic rowDb "U1" "2026-01-02" "09:00"
  refine ⟨⟨by decide, by decide, h.1 a1 (by decide) (by decide)⟩,
    h.2.2.1, ⟨?_, h.2.2.2.2 (some 1) [FieldUpd.loginTime (some "09:00")]
      ?_ ?_⟩⟩
  · intro v hv
    simp at hv
  · intro v hv
    simp at hv
  · intro v hv
    simp at hv

end AttendanceBot
